import Mathlib

/-!
Shallow embedding of the `nndi` source/recv core (`src/source/mod.rs`,
`src/recv.rs`): frame model, peer state, the Source multiplexing loop body,
tally aggregation, the encode/broadcast path, and the Recv reader task and
pull iterators, together with theorems settling the specification claims.
-/

namespace Nndi

/-- Modelled from the spec: the kind tag of a wire frame (the `FrameKind`
enum lives in `io::frame`, which is not under `src/`). -/
inductive FrameKind where
  | video
  | audio
  | text
deriving DecidableEq, Repr

/-- Modelled from the spec: the `Tally` text-metadata payload, a pair of
boolean flags (`io::frame::text::Tally` is not under `src/`). -/
structure Tally where
  program : Bool
  preview : Bool
deriving DecidableEq, Repr

/-- Modelled from the spec: `Tally`'s `BitOr` implementation — the bitwise-OR
of each flag independently (`io::frame::text` is not under `src/`). -/
def Tally.or (a b : Tally) : Tally :=
  { program := a.program || b.program, preview := a.preview || b.preview }

/-- Modelled from the spec: `Tally::default()`, the "off-air" status
`\x7bfalse, false\x7d`. -/
def Tally.off : Tally := { program := false, preview := false }

/-- Modelled from the spec: the `EnabledStreams` capability bitmap
(`io::frame::text::EnabledStreams` is not under `src/`). -/
structure EnabledStreams where
  video : Bool
  audio : Bool
  text : Bool
  shq_skip_block : Bool
  shq_short_dc : Bool
deriving DecidableEq, Repr

/-- Modelled from the spec: the `Identify` text-metadata payload. -/
structure Identify where
  name : String
deriving DecidableEq, Repr

/-- Modelled from the spec: the video format `Spec` carried by a video block
(`io::frame::video::Spec` is not under `src/`); `aspect_ratio` (an `f32`
computed as width / height) is represented by its exact numerator and
denominator. -/
structure VideoSpec where
  fourcc : Nat
  width : Nat
  height : Nat
  fps_num : Nat
  fps_den : Nat
  aspect_num : Nat
  aspect_den : Nat
  progressive : Bool
  timestamp : Nat
deriving DecidableEq, Repr

/-- Modelled from the spec: a video `Block` — compressed bytes plus a typed
`Spec`. -/
structure VideoBlock where
  spec : VideoSpec
  data : List Nat
deriving DecidableEq, Repr

/-- Modelled from the spec: an audio `Block`. -/
structure AudioBlock where
  data : List Nat
deriving DecidableEq, Repr

/-- Modelled from the spec: a text/metadata `Block` payload, one of the five
legal `Metadata` variants. -/
inductive Metadata where
  | version (video audio text : Nat) (sdk platform : String)
  | identify (i : Identify)
  | videoQuality (quality : Nat)
  | enabledStreams (es : EnabledStreams)
  | tally (t : Tally)
deriving DecidableEq, Repr

/-- Modelled from the spec: the `Frame` tagged union carried on the wire. -/
inductive Frame where
  | video (b : VideoBlock)
  | audio (b : AudioBlock)
  | text (m : Metadata)
deriving DecidableEq, Repr

/-- The kind tag of a frame. -/
def Frame.kind : Frame → FrameKind
  | .video _ => .video
  | .audio _ => .audio
  | .text _ => .text

/-- Whether a frame matches `Frame::Video \x7b .. \x7d`. -/
def Frame.isVideo : Frame → Bool
  | .video _ => true
  | _ => false

/-- Whether a frame matches `Frame::Audio \x7b .. \x7d`. -/
def Frame.isAudio : Frame → Bool
  | .audio _ => true
  | _ => false

/-- Whether a frame matches `Frame::Text \x7b .. \x7d`. -/
def Frame.isText : Frame → Bool
  | .text _ => true
  | _ => false

/-- `Peer` (from `src/source/peer.rs`, declared by `src/source/mod.rs`):
identity, negotiated capabilities and last reported tally of one connected
consumer. -/
structure Peer where
  identify : Identify
  streams : EnabledStreams
  tally : Tally
deriving DecidableEq, Repr

/-- `Source::tally` (src/source/mod.rs lines 179-184): fold the tallies of
all connected peers with `|` starting from `Default::default()`. -/
def Source.tallyOfPeers (peers : List Peer) : Tally :=
  peers.foldl (fun current peer => current.or peer.tally) Tally.off

theorem Tally.or_comm (a b : Tally) : a.or b = b.or a := by
  simp [Tally.or, Bool.or_comm]

theorem Tally.or_assoc (a b c : Tally) : (a.or b).or c = a.or (b.or c) := by
  simp [Tally.or, Bool.or_assoc]

theorem Tally.off_or (a : Tally) : Tally.off.or a = a := by
  simp [Tally.or, Tally.off]

theorem Tally.or_off (a : Tally) : a.or Tally.off = a := by
  simp [Tally.or, Tally.off]

theorem Source.tally_foldl_or (l : List Peer) (a b : Tally) :
    l.foldl (fun current peer => current.or peer.tally) (a.or b)
      = (l.foldl (fun current peer => current.or peer.tally) a).or b := by
  induction l generalizing a with
  | nil => rfl
  | cons q l ih =>
      simp only [List.foldl_cons]
      rw [show (a.or b).or q.tally = (a.or q.tally).or b by
            rw [Tally.or_assoc, Tally.or_assoc, Tally.or_comm b]]
      exact ih (a.or q.tally)

theorem Source.tallyOfPeers_cons (p : Peer) (l : List Peer) :
    Source.tallyOfPeers (p :: l) = (Source.tallyOfPeers l).or p.tally := by
  simp only [Source.tallyOfPeers, List.foldl_cons]
  rw [Tally.off_or, show p.tally = Tally.off.or p.tally from
        (Tally.off_or p.tally).symm, Source.tally_foldl_or]
  rw [Tally.off_or]

theorem Source.tallyOfPeers_program (l : List Peer) :
    (Source.tallyOfPeers l).program = l.any (fun p => p.tally.program) := by
  induction l with
  | nil => rfl
  | cons p l ih =>
      rw [Source.tallyOfPeers_cons]
      simp [Tally.or, ih, Bool.or_comm]

theorem Source.tallyOfPeers_preview (l : List Peer) :
    (Source.tallyOfPeers l).preview = l.any (fun p => p.tally.preview) := by
  induction l with
  | nil => rfl
  | cons p l ih =>
      rw [Source.tallyOfPeers_cons]
      simp [Tally.or, ih, Bool.or_comm]

theorem Source.tallyOfPeers_perm {l₁ l₂ : List Peer} (h : l₁.Perm l₂) :
    Source.tallyOfPeers l₁ = Source.tallyOfPeers l₂ := by
  induction h with
  | nil => rfl
  | cons p _ ih => rw [Source.tallyOfPeers_cons, Source.tallyOfPeers_cons, ih]
  | swap p q l =>
      rw [Source.tallyOfPeers_cons, Source.tallyOfPeers_cons,
          Source.tallyOfPeers_cons, Source.tallyOfPeers_cons,
          Tally.or_assoc, Tally.or_assoc, Tally.or_comm p.tally q.tally]
  | trans _ _ ih₁ ih₂ => rw [ih₁, ih₂]

/-- C2: `Source::tally` is the independent bitwise-OR of every peer's
`program` and `preview` flag, folded from the identity off-air tally; the
OR is commutative and associative with identity `\x7bfalse,false\x7d`, so
the result is invariant under any reordering of the peer enumeration. -/
theorem Source.tally_is_or_fold (l : List Peer) :
    (Source.tallyOfPeers l).program = l.any (fun p => p.tally.program)
      ∧ (Source.tallyOfPeers l).preview = l.any (fun p => p.tally.preview)
      ∧ (∀ a b : Tally, a.or b = b.or a)
      ∧ (∀ a b c : Tally, (a.or b).or c = a.or (b.or c))
      ∧ (∀ a : Tally, Tally.off.or a = a ∧ a.or Tally.off = a)
      ∧ (∀ l' : List Peer, l.Perm l' →
          Source.tallyOfPeers l = Source.tallyOfPeers l') :=
  ⟨Source.tallyOfPeers_program l, Source.tallyOfPeers_preview l,
   Tally.or_comm, Tally.or_assoc,
   fun a => ⟨Tally.off_or a, Tally.or_off a⟩,
   fun _ h => Source.tallyOfPeers_perm h⟩

/-- C2 witness: the aggregation evaluated on two concrete peers, in both
enumeration orders. -/
theorem Source.tally_is_or_fold_witness :
    (Source.tallyOfPeers
        [⟨⟨"a"⟩, ⟨true, true, true, true, true⟩, ⟨true, false⟩⟩,
         ⟨⟨"b"⟩, ⟨true, true, true, true, true⟩, ⟨false, true⟩⟩]).program
      = true
    ∧ Source.tallyOfPeers
        [⟨⟨"a"⟩, ⟨true, true, true, true, true⟩, ⟨true, false⟩⟩,
         ⟨⟨"b"⟩, ⟨true, true, true, true, true⟩, ⟨false, true⟩⟩]
      = Source.tallyOfPeers
        [⟨⟨"b"⟩, ⟨true, true, true, true, true⟩, ⟨false, true⟩⟩,
         ⟨⟨"a"⟩, ⟨true, true, true, true, true⟩, ⟨true, false⟩⟩] := by
  refine ⟨?_, ?_⟩
  · rw [(Source.tally_is_or_fold _).1]
    decide
  · exact (Source.tally_is_or_fold _).2.2.2.2.2 _ (by decide)

/-- The transport errors of the crate's `Error` enum that this core can
produce. -/
inductive Error where
  | io
  | handshakeTimeout
  | ffmpeg
  | closedChannel
deriving DecidableEq, Repr

/-- A connected `Stream` (src/source/mod.rs stores one per registry entry):
modelled by whether its sends fail and by the frames successfully written
to it. -/
structure Stream where
  sendFails : Bool
  sent : List Frame
deriving DecidableEq, Repr

/-- `Stream::send`: serialize and write one frame; fails on write failure or
peer disconnect. -/
def Stream.send (s : Stream) (f : Frame) : Except Error Stream :=
  if s.sendFails then .error .io else .ok { s with sent := s.sent ++ [f] }

/-- One entry of the `Slab<(Lock<Peer>, Stream)>` connection registry:
its slab slot, the identity of the `Arc` holding the peer, the peer record
and the stream. -/
structure Entry where
  slot : Nat
  arcId : Nat
  peer : Peer
  stream : Stream
deriving DecidableEq, Repr

/-- Lowest slot index not in `used`, with explicit fuel (the `Slab` inserts
at the lowest free slot). -/
def freeSlotAux (used : List Nat) : Nat → Nat → Nat
  | 0, k => k
  | fuel + 1, k => if k ∈ used then freeSlotAux used fuel (k + 1) else k

/-- The slot a `Slab::insert` assigns: the lowest free index. -/
def freeSlot (used : List Nat) : Nat := freeSlotAux used (used.length + 1) 0

/-- The state owned by `Source::listen`: the counter generating `Arc`
identities, the shared `peers` vector of weak references (by arc identity),
and the `streams` slab of connection entries. -/
structure ListenState where
  nextArc : Nat
  peersVec : List Nat
  streams : List Entry
deriving DecidableEq, Repr

/-- Decidable equality on `Except`, for evaluating the step functions on
concrete inputs. -/
instance exceptDecEq {ε α : Type} [DecidableEq ε] [DecidableEq α] :
    DecidableEq (Except ε α) := fun x y =>
  match x, y with
  | .ok a, .ok b =>
      if h : a = b then .isTrue (by rw [h]) else .isFalse (by simp [h])
  | .error a, .error b =>
      if h : a = b then .isTrue (by rw [h]) else .isFalse (by simp [h])
  | .ok _, .error _ => .isFalse (by simp)
  | .error _, .ok _ => .isFalse (by simp)

/-- One firing of the `tokio::select!` in `Source::listen`: a new
connection was accepted (with the result of the timed handshake), a
registered peer's stream became readable and one metadata read completed,
or an outbound frame arrived on the bounded channel. -/
inductive ListenEvent where
  | accept (accepted : Except Error Stream) (handshake : Except Error Peer)
  | metadataReady (idx : Nat) (metadata : Except Error (Option Metadata))
  | frame (f : Frame)
deriving DecidableEq, Repr

/-- The per-peer filter of the broadcast arm (src/source/mod.rs lines
137-139): `(peer.streams.text && frame is Text) || (peer.streams.video &&
frame is Video) || (peer.streams.audio && frame is Audio)`. -/
def Source.shouldSend (streams : EnabledStreams) (frame : Frame) : Bool :=
  (streams.text && frame.isText) || (streams.video && frame.isVideo)
    || (streams.audio && frame.isAudio)

/-- The negotiated flag for a given frame kind. -/
def EnabledStreams.forKind (es : EnabledStreams) : FrameKind → Bool
  | .video => es.video
  | .audio => es.audio
  | .text => es.text

/-- The broadcast arm's action on one registry entry (src/source/mod.rs
lines 130-147): if the peer's capability matches the frame's kind, attempt
`stream.send(frame)` and ignore its error with `.ok()`; otherwise skip. -/
def Source.broadcastEntry (f : Frame) (e : Entry) : Entry :=
  if Source.shouldSend e.peer.streams f then
    match e.stream.send f with
    | .ok s => { e with stream := s }
    | .error _ => e
  else e

/-- One iteration of the `Source::listen` loop body (src/source/mod.rs
lines 83-153). The accept arm propagates accept and handshake errors with
`?`/`??` out of `listen`; the metadata arm updates a tally, ignores other
metadata, or removes the failing entry; the frame arm broadcasts to every
entry through `Source.broadcastEntry`. -/
def Source.listenStep (st : ListenState) (ev : ListenEvent) :
    Except Error ListenState :=
  match ev with
  | .accept accepted handshake =>
    match accepted with
    | .error e => .error e
    | .ok stream =>
      match handshake with
      | .error e => .error e
      | .ok peer =>
        .ok { nextArc := st.nextArc + 1,
              peersVec := st.peersVec ++ [st.nextArc],
              streams := st.streams ++
                [{ slot := freeSlot (st.streams.map Entry.slot),
                   arcId := st.nextArc, peer := peer, stream := stream }] }
  | .metadataReady idx metadata =>
    match metadata with
    | .ok (some (.tally t)) =>
      .ok { st with streams := st.streams.map (fun e =>
              if e.slot = idx
              then { e with peer := { e.peer with tally := t } }
              else e) }
    | .ok _ => .ok st
    | .error _ =>
      .ok { st with streams := st.streams.filter (fun e => e.slot ≠ idx) }
  | .frame f =>
    .ok { st with streams := st.streams.map (Source.broadcastEntry f) }

theorem Source.shouldSend_eq_forKind (es : EnabledStreams) (f : Frame) :
    Source.shouldSend es f = es.forKind f.kind := by
  cases f <;>
    simp [Source.shouldSend, EnabledStreams.forKind, Frame.kind,
          Frame.isVideo, Frame.isAudio, Frame.isText]

end Nndi

namespace Nndi

/-- A capability bitmap with every stream kind enabled. -/
def allOnES : EnabledStreams := ⟨true, true, true, true, true⟩

/-- A capability bitmap enabling only the audio stream. -/
def audioOnlyES : EnabledStreams := ⟨false, true, false, false, false⟩

/-- A sample peer wanting every kind. -/
def allOnPeer : Peer := ⟨⟨"peer"⟩, allOnES, Tally.off⟩

/-- A sample peer wanting only audio. -/
def audioOnlyPeer : Peer := ⟨⟨"audio-only"⟩, audioOnlyES, Tally.off⟩

/-- A healthy stream with nothing written yet. -/
def goodStream : Stream := ⟨false, []⟩

/-- A stream whose writes fail (disconnected peer). -/
def badStream : Stream := ⟨true, []⟩

/-- A sample encoded video frame. -/
def sampleFrame : Frame := .video ⟨⟨0, 32, 32, 30, 1, 32, 32, true, 0⟩, [1, 2, 3]⟩

/-- The listen state before any connection. -/
def emptyListen : ListenState := ⟨0, [], []⟩

/-- A listen state with two registered peers at slots 0 and 1. -/
def twoPeerState : ListenState :=
  ⟨2, [0, 1], [⟨0, 0, allOnPeer, goodStream⟩, ⟨1, 1, audioOnlyPeer, goodStream⟩]⟩

theorem Source.broadcastEntry_sent (f : Frame) (e : Entry) :
    (Source.broadcastEntry f e).stream.sent
      = e.stream.sent ++
          (if e.peer.streams.forKind f.kind && !e.stream.sendFails
           then [f] else []) := by
  unfold Source.broadcastEntry
  rw [Source.shouldSend_eq_forKind]
  cases h : e.peer.streams.forKind f.kind with
  | false => simp
  | true =>
      cases hs : e.stream.sendFails with
      | false => simp [Stream.send, hs]
      | true => simp [Stream.send, hs]

theorem Source.broadcastEntry_skip (f : Frame) (e : Entry)
    (h : e.peer.streams.forKind f.kind = false) :
    Source.broadcastEntry f e = e := by
  unfold Source.broadcastEntry
  rw [Source.shouldSend_eq_forKind, h]
  simp

theorem Source.broadcastEntry_sendFails (f : Frame) (e : Entry)
    (h : e.stream.sendFails = true) : Source.broadcastEntry f e = e := by
  unfold Source.broadcastEntry
  split
  · simp [Stream.send, h]
  · rfl

theorem Source.broadcastEntry_preserves (f : Frame) (e : Entry) :
    (Source.broadcastEntry f e).slot = e.slot
      ∧ (Source.broadcastEntry f e).arcId = e.arcId
      ∧ (Source.broadcastEntry f e).peer = e.peer := by
  unfold Source.broadcastEntry
  split
  · cases hs : e.stream.send f <;> simp [hs]
  · simp

/-- C1: broadcasting a frame maps every registry entry independently through
the capability filter: the code's three-way send condition equals the peer's
negotiated flag for the frame's kind, a send is attempted exactly when that
flag is true (the frame lands on the peer's stream whenever the transport
accepts the write), and a peer whose flag for that kind is false is skipped
entirely — its entry, stream included, is untouched. -/
theorem Source.broadcast_filters_by_enabled_streams
    (st : ListenState) (f : Frame) :
    Source.listenStep st (.frame f)
        = .ok { st with streams := st.streams.map (Source.broadcastEntry f) }
      ∧ (∀ e : Entry,
          Source.shouldSend e.peer.streams f = e.peer.streams.forKind f.kind
          ∧ (Source.broadcastEntry f e).stream.sent
              = e.stream.sent ++
                  (if e.peer.streams.forKind f.kind && !e.stream.sendFails
                   then [f] else [])
          ∧ (e.peer.streams.forKind f.kind = false →
              Source.broadcastEntry f e = e)) :=
  ⟨rfl, fun e =>
    ⟨Source.shouldSend_eq_forKind _ f, Source.broadcastEntry_sent f e,
     Source.broadcastEntry_skip f e⟩⟩

/-- C1 witness: a video broadcast over a registry holding one all-kinds peer
and one audio-only peer delivers to the former and skips the latter. -/
theorem Source.broadcast_filters_by_enabled_streams_witness :
    Source.listenStep twoPeerState (.frame sampleFrame)
        = .ok ⟨2, [0, 1],
            [⟨0, 0, allOnPeer, ⟨false, [sampleFrame]⟩⟩,
             ⟨1, 1, audioOnlyPeer, goodStream⟩]⟩
      ∧ Source.broadcastEntry sampleFrame ⟨1, 1, audioOnlyPeer, goodStream⟩
          = ⟨1, 1, audioOnlyPeer, goodStream⟩ := by
  refine ⟨?_, ?_⟩
  · rw [(Source.broadcast_filters_by_enabled_streams twoPeerState sampleFrame).1]
    decide
  · exact ((Source.broadcast_filters_by_enabled_streams twoPeerState
        sampleFrame).2 ⟨1, 1, audioOnlyPeer, goodStream⟩).2.2 (by decide)

/-- C3 counterexample: with an empty registry, an accepted connection whose
handshake times out does not leave the multiplexing loop running:
`listenStep` returns an error (the `??` propagation out of `Source::listen`),
so "the failure is only logged and never propagated to the whole Source, and
the loop keeps accepting" is false at this input. -/
theorem Source.handshake_failure_not_isolated_cex :
    ¬ ∃ st' : ListenState,
        Source.listenStep emptyListen
            (.accept (.ok goodStream) (.error .handshakeTimeout))
          = .ok st' := by
  intro h
  obtain ⟨st', h⟩ := h
  exact Except.noConfusion h

/-- C3 amended: a connection whose handshake fails or times out is never
inserted into the peer registry, but the failure is not isolated: the error
propagates out of the `listen` loop (`?` on accept, `??` on the timed
handshake), terminating the whole multiplexing loop instead of being merely
logged. -/
theorem Source.handshake_failure_terminates_listen
    (st : ListenState) (s : Stream) (e : Error) :
    Source.listenStep st (.accept (.ok s) (.error e)) = .error e
      ∧ ∀ hs : Except Error Peer,
          Source.listenStep st (.accept (.error e) hs) = .error e :=
  ⟨rfl, fun _ => rfl⟩

/-- C4 counterexample: a registry holding one peer whose transport rejects
writes; broadcasting a video frame completes with that peer's entry still
present and unchanged — the failed send does not remove the peer from the
connection registry, contrary to the claim. -/
theorem Source.failed_send_not_removed_cex :
    Source.listenStep ⟨1, [0], [⟨0, 0, allOnPeer, badStream⟩]⟩
        (.frame sampleFrame)
      = .ok ⟨1, [0], [⟨0, 0, allOnPeer, badStream⟩]⟩ := rfl

/-- C4 amended: per-peer sends are independent — the new registry is the
pointwise image of `broadcastEntry`, each resulting entry a function of that
entry and the frame alone, with slot, arc identity and peer state preserved
and the entry count unchanged — but a send failure is ignored (`.ok()`): the
failing peer's entry stays in the registry unchanged rather than being
removed; removal happens only later through its metadata read path. -/
theorem Source.broadcast_send_failure_ignored (st : ListenState) (f : Frame) :
    Source.listenStep st (.frame f)
        = .ok { st with streams := st.streams.map (Source.broadcastEntry f) }
      ∧ (∀ e : Entry, e.stream.sendFails = true →
          Source.broadcastEntry f e = e)
      ∧ (∀ e : Entry, (Source.broadcastEntry f e).slot = e.slot
            ∧ (Source.broadcastEntry f e).arcId = e.arcId
            ∧ (Source.broadcastEntry f e).peer = e.peer)
      ∧ (st.streams.map (Source.broadcastEntry f)).length = st.streams.length :=
  ⟨rfl, fun _ h => Source.broadcastEntry_sendFails _ _ h,
   fun e => Source.broadcastEntry_preserves f e,
   st.streams.length_map _⟩

/-- C4 witness: the ignored-failure branch evaluated on a concrete failing
stream. -/
theorem Source.broadcast_send_failure_ignored_witness :
    Source.broadcastEntry sampleFrame ⟨0, 0, allOnPeer, badStream⟩
      = ⟨0, 0, allOnPeer, badStream⟩ :=
  (Source.broadcast_send_failure_ignored
      ⟨1, [0], [⟨0, 0, allOnPeer, badStream⟩]⟩ sampleFrame).2.1 _ (by decide)

/-- C7: the metadata arm of the loop: a `Tally` metadata frame read from the
peer at slot `idx` rewrites exactly that entry's tally field (the update
function fixes every entry at a different slot), any other metadata — or a
non-metadata frame surfaced as `None` — leaves the whole state unchanged,
and a read error removes exactly the entry at that slot while keeping every
other entry and leaving the weak-reference vector and arc counter intact. -/
theorem Source.metadata_arm_behavior (st : ListenState) (idx : Nat) :
    (∀ t : Tally,
        Source.listenStep st (.metadataReady idx (.ok (some (.tally t))))
          = .ok { st with streams := st.streams.map (fun e =>
              if e.slot = idx
              then { e with peer := { e.peer with tally := t } }
              else e) }
        ∧ ∀ e : Entry, e.slot ≠ idx →
            (if e.slot = idx
             then { e with peer := { e.peer with tally := t } }
             else e) = e)
      ∧ (∀ m : Option Metadata, (∀ t : Tally, m ≠ some (.tally t)) →
          Source.listenStep st (.metadataReady idx (.ok m)) = .ok st)
      ∧ (∀ err : Error,
          Source.listenStep st (.metadataReady idx (.error err))
            = .ok { st with
                streams := st.streams.filter (fun e => e.slot ≠ idx) }
          ∧ ∀ e, e ∈ st.streams → e.slot ≠ idx →
              e ∈ st.streams.filter (fun e => e.slot ≠ idx)) := by
  refine ⟨fun t => ⟨rfl, fun e h => if_neg h⟩, ?_, fun err => ⟨rfl, ?_⟩⟩
  · intro m h
    match m with
    | none => rfl
    | some (.version _ _ _ _ _) => rfl
    | some (.identify _) => rfl
    | some (.videoQuality _) => rfl
    | some (.enabledStreams _) => rfl
    | some (.tally t) => exact absurd rfl (h t)
  · intro e he hne
    exact List.mem_filter.mpr ⟨he, by simp [hne]⟩

/-- C7 witness: the three metadata outcomes evaluated on a concrete two-peer
registry: a tally update touching only slot 0, an ignored `None`, and a read
error removing only slot 0. -/
theorem Source.metadata_arm_behavior_witness :
    Source.listenStep twoPeerState
        (.metadataReady 0 (.ok (some (.tally ⟨true, false⟩))))
      = .ok ⟨2, [0, 1],
          [⟨0, 0, ⟨⟨"peer"⟩, allOnES, ⟨true, false⟩⟩, goodStream⟩,
           ⟨1, 1, audioOnlyPeer, goodStream⟩]⟩
      ∧ Source.listenStep twoPeerState (.metadataReady 0 (.ok none))
          = .ok twoPeerState
      ∧ Source.listenStep twoPeerState (.metadataReady 0 (.error .io))
          = .ok ⟨2, [0, 1], [⟨1, 1, audioOnlyPeer, goodStream⟩]⟩ := by
  refine ⟨?_, ?_, ?_⟩
  · rw [((Source.metadata_arm_behavior twoPeerState 0).1 ⟨true, false⟩).1]
    decide
  · exact (Source.metadata_arm_behavior twoPeerState 0).2.1 none
      (fun t => by simp)
  · rw [((Source.metadata_arm_behavior twoPeerState 0).2.2 .io).1]
    decide

end Nndi

namespace Nndi

/-- flume's blocking-receive error: every sender is gone and the queue is
drained. -/
inductive RecvError where
  | disconnected
deriving DecidableEq, Repr

/-- A flume channel as seen from its consuming side (`Recv`'s `video` /
`audio` receivers): the buffered blocks, oldest first, and whether the
producing side (the reader task) is still alive. -/
structure ConsumerQueue (α : Type) where
  buffer : List α
  senderAlive : Bool
deriving DecidableEq, Repr

/-- flume `Receiver::recv`: yields the oldest buffered item if any (the
queue drains even after the sender is gone); with an empty buffer it
returns `Err(Disconnected)` immediately when the sender is gone, and blocks
(`none`) otherwise. -/
def ConsumerQueue.recv {α : Type} (q : ConsumerQueue α) :
    Option (Except RecvError α × ConsumerQueue α) :=
  match q.buffer with
  | x :: rest => some (.ok x, { q with buffer := rest })
  | [] => if q.senderAlive then none else some (.error .disconnected, q)

/-- `Recv::iter_video` / `Recv::iter_audio` (src/recv.rs lines 134-137 and
163-166): one pull of `std::iter::from_fn(move || Some(queue.recv()))`.
When the underlying `recv` completes the iterator yields `some` holding its
`Result` — the closure always wraps it in `Some`, so the iterator item is
never `none`; the outer `none` stands for the pull blocking. -/
def Recv.iterNext {α : Type} (q : ConsumerQueue α) :
    Option (Option (Except RecvError α) × ConsumerQueue α) :=
  match q.recv with
  | none => none
  | some (r, q') => some (some r, q')

/-- C5 counterexample: with the producer end gone and the queue drained, the
blocking pull sequence still yields an item — `Some(Err(Disconnected))` —
on a video pull and on an audio pull alike, rather than yielding no further
values: the iterator never terminates. -/
theorem Recv.iter_yields_after_drained_cex :
    Recv.iterNext (α := VideoBlock) ⟨[], false⟩
        = some (some (.error .disconnected), ⟨[], false⟩)
      ∧ Recv.iterNext (α := AudioBlock) ⟨[], false⟩
        = some (some (.error .disconnected), ⟨[], false⟩) :=
  ⟨rfl, rfl⟩

/-- C5 amended: once the producer end is gone the pull sequence never
blocks: while buffered data remains each pull yields the next block in
order, and after the queue is drained every pull immediately yields
`Err(Disconnected)` — the iterator keeps yielding these error items forever
instead of terminating. -/
theorem Recv.iter_after_producer_gone {α : Type} (q : ConsumerQueue α)
    (h : q.senderAlive = false) :
    Recv.iterNext q ≠ none
      ∧ (q.buffer = [] →
          Recv.iterNext q = some (some (.error .disconnected), q))
      ∧ (∀ x rest, q.buffer = x :: rest →
          Recv.iterNext q = some (some (.ok x), { q with buffer := rest })) := by
  refine ⟨?_, ?_, ?_⟩
  · cases hb : q.buffer <;> simp [Recv.iterNext, ConsumerQueue.recv, hb, h]
  · intro hb
    simp [Recv.iterNext, ConsumerQueue.recv, hb, h]
  · intro x rest hb
    simp [Recv.iterNext, ConsumerQueue.recv, hb]

/-- C5 witness: the amended behavior evaluated on a concrete drained queue
and on a concrete queue holding one block, both with the producer gone. -/
theorem Recv.iter_after_producer_gone_witness :
    Recv.iterNext (α := AudioBlock) ⟨[⟨[7]⟩], false⟩
        = some (some (.ok ⟨[7]⟩), ⟨[], false⟩)
      ∧ Recv.iterNext (α := AudioBlock) ⟨[], false⟩ ≠ none := by
  refine ⟨?_, ?_⟩
  · exact (Recv.iter_after_producer_gone
      (⟨[⟨[7]⟩], false⟩ : ConsumerQueue AudioBlock) rfl).2.2 ⟨[7]⟩ [] rfl
  · exact (Recv.iter_after_producer_gone
      (⟨[], false⟩ : ConsumerQueue AudioBlock) rfl).1

/-- The error of flume `Sender::try_send`. -/
inductive TrySendError where
  | full
  | disconnected
deriving DecidableEq, Repr

/-- A flume bounded channel as seen from its producing side (the reader
task's `video` / `audio` senders): capacity, buffered blocks, and whether
the consuming receiver has been dropped. -/
structure BoundedQueue (α : Type) where
  cap : Nat
  buffer : List α
  consumerAlive : Bool
deriving DecidableEq, Repr

/-- flume `Sender::is_disconnected`: every receiver has been dropped. -/
def BoundedQueue.isDisconnected {α : Type} (q : BoundedQueue α) : Bool :=
  !q.consumerAlive

/-- flume `Sender::try_send`: fails immediately with `Disconnected` when the
receiver is gone, with `Full` when the queue is at capacity, and otherwise
appends the block without blocking. -/
def BoundedQueue.trySend {α : Type} (q : BoundedQueue α) (x : α) :
    Except TrySendError (BoundedQueue α) :=
  if q.isDisconnected then .error .disconnected
  else if q.cap ≤ q.buffer.length then .error .full
  else .ok { q with buffer := q.buffer ++ [x] }

/-- The state owned by the `Recv::task` reader loop: the two bounded
per-kind queues it feeds. -/
structure RecvTaskState where
  videoQ : BoundedQueue VideoBlock
  audioQ : BoundedQueue AudioBlock
deriving DecidableEq, Repr

/-- The fate of one reader-loop iteration: the loop broke out normally, the
stream read failed fatally (`?` in the task closure), or it continues with
the updated queues. -/
inductive TaskOutcome where
  | finished
  | fatal (e : Error)
  | running (st : RecvTaskState)
deriving DecidableEq, Repr

/-- One iteration of the `Recv::task` reader loop (src/recv.rs lines
96-117): break when both queues' consumers are dropped (checked before the
read); otherwise read one frame — a read error is fatal to the task — and
route it: a video block is `try_send`-delivered to the video queue with a
failed delivery merely logged, an audio block likewise on the audio queue,
and a text frame is discarded. `read` is the result of `stream.recv()`. -/
def Recv.taskStep (st : RecvTaskState) (read : Except Error Frame) :
    TaskOutcome :=
  if st.videoQ.isDisconnected && st.audioQ.isDisconnected then .finished
  else
    match read with
    | .error e => .fatal e
    | .ok (.video b) =>
      match st.videoQ.trySend b with
      | .ok q => .running { st with videoQ := q }
      | .error _ => .running st
    | .ok (.audio b) =>
      match st.audioQ.trySend b with
      | .ok q => .running { st with audioQ := q }
      | .error _ => .running st
    | .ok (.text _) => .running st

theorem Recv.taskStep_finished_iff (st : RecvTaskState)
    (read : Except Error Frame) :
    Recv.taskStep st read = .finished
      ↔ (st.videoQ.isDisconnected && st.audioQ.isDisconnected) = true := by
  unfold Recv.taskStep
  cases h : st.videoQ.isDisconnected && st.audioQ.isDisconnected with
  | true => simp
  | false =>
      simp only [Bool.false_eq_true, if_false, iff_false]
      match read with
      | .error e => simp
      | .ok (.video b) => cases hts : st.videoQ.trySend b <;> simp [hts]
      | .ok (.audio b) => cases hts : st.audioQ.trySend b <;> simp [hts]
      | .ok (.text m) => simp

theorem BoundedQueue.trySend_full {α : Type} (q : BoundedQueue α) (x : α)
    (ha : q.consumerAlive = true) (hf : q.cap ≤ q.buffer.length) :
    q.trySend x = .error .full := by
  simp [BoundedQueue.trySend, BoundedQueue.isDisconnected, ha, hf]

theorem Recv.taskStep_video (st : RecvTaskState) (b : VideoBlock)
    (h : (st.videoQ.isDisconnected && st.audioQ.isDisconnected) = false) :
    Recv.taskStep st (.ok (.video b))
      = .running { st with videoQ :=
          match st.videoQ.trySend b with
          | .ok q => q
          | .error _ => st.videoQ } := by
  unfold Recv.taskStep
  rw [h]
  cases hts : st.videoQ.trySend b <;> simp [hts]

theorem Recv.taskStep_audio (st : RecvTaskState) (b : AudioBlock)
    (h : (st.videoQ.isDisconnected && st.audioQ.isDisconnected) = false) :
    Recv.taskStep st (.ok (.audio b))
      = .running { st with audioQ :=
          match st.audioQ.trySend b with
          | .ok q => q
          | .error _ => st.audioQ } := by
  unfold Recv.taskStep
  rw [h]
  cases hts : st.audioQ.trySend b <;> simp [hts]

/-- C6: the reader loop checks both consumer ends before each read and its
normal break happens exactly when both are dropped; otherwise the frame just
read is routed by kind: a video block goes to the video queue by a
non-blocking send whose failure (in particular a full queue) leaves both
queues exactly as they were — only the newly arrived block is lost and the
audio queue is never touched by a video frame — an audio block does the
same on the audio queue, and a text frame changes nothing. -/
theorem Recv.task_routing (st : RecvTaskState) :
    (∀ read, Recv.taskStep st read = .finished
        ↔ (st.videoQ.isDisconnected && st.audioQ.isDisconnected) = true)
      ∧ ((st.videoQ.isDisconnected && st.audioQ.isDisconnected) = false →
          (∀ b, Recv.taskStep st (.ok (.video b))
              = .running { st with videoQ :=
                  match st.videoQ.trySend b with
                  | .ok q => q
                  | .error _ => st.videoQ })
          ∧ (∀ b, st.videoQ.consumerAlive = true →
              st.videoQ.cap ≤ st.videoQ.buffer.length →
              Recv.taskStep st (.ok (.video b)) = .running st)
          ∧ (∀ b, Recv.taskStep st (.ok (.audio b))
              = .running { st with audioQ :=
                  match st.audioQ.trySend b with
                  | .ok q => q
                  | .error _ => st.audioQ })
          ∧ (∀ b, st.audioQ.consumerAlive = true →
              st.audioQ.cap ≤ st.audioQ.buffer.length →
              Recv.taskStep st (.ok (.audio b)) = .running st)
          ∧ (∀ m, Recv.taskStep st (.ok (.text m)) = .running st)) := by
  refine ⟨Recv.taskStep_finished_iff st, fun h => ⟨fun b => ?_, ?_, fun b => ?_, ?_, fun m => ?_⟩⟩
  · exact Recv.taskStep_video st b h
  · intro b ha hf
    rw [Recv.taskStep_video st b h, BoundedQueue.trySend_full st.videoQ b ha hf]
  · exact Recv.taskStep_audio st b h
  · intro b ha hf
    rw [Recv.taskStep_audio st b h, BoundedQueue.trySend_full st.audioQ b ha hf]
  · unfold Recv.taskStep
    rw [h]
    simp

/-- C6 witness: the loop evaluated on a concrete state whose video queue is
full: the break test, the dropped video block with the audio queue
untouched, a delivered audio block, a discarded text frame, and the break
itself once both consumers are gone. -/
theorem Recv.task_routing_witness :
    Recv.taskStep ⟨⟨1, [⟨⟨0, 32, 32, 30, 1, 32, 32, true, 0⟩, [9]⟩], true⟩,
        ⟨1, [], true⟩⟩ (.ok (.video ⟨⟨0, 32, 32, 30, 1, 32, 32, true, 0⟩, [5]⟩))
      = .running ⟨⟨1, [⟨⟨0, 32, 32, 30, 1, 32, 32, true, 0⟩, [9]⟩], true⟩,
          ⟨1, [], true⟩⟩
      ∧ Recv.taskStep ⟨⟨1, [], true⟩, ⟨1, [], true⟩⟩ (.ok (.audio ⟨[4]⟩))
        = .running ⟨⟨1, [], true⟩, ⟨1, [⟨[4]⟩], true⟩⟩
      ∧ Recv.taskStep ⟨⟨1, [], true⟩, ⟨1, [], true⟩⟩
          (.ok (.text (.tally ⟨true, true⟩)))
        = .running ⟨⟨1, [], true⟩, ⟨1, [], true⟩⟩
      ∧ (Recv.taskStep ⟨⟨1, [], false⟩, ⟨1, [], false⟩⟩ (.ok (.audio ⟨[4]⟩))
          = .finished
        ↔ True) := by
  refine ⟨?_, ?_, ?_, ?_⟩
  · exact ((Recv.task_routing _).2 (by decide)).2.1
      ⟨⟨0, 32, 32, 30, 1, 32, 32, true, 0⟩, [5]⟩ (by decide) (by decide)
  · rw [((Recv.task_routing _).2 (by decide)).2.2.1 ⟨[4]⟩]
    decide
  · exact ((Recv.task_routing _).2 (by decide)).2.2.2.2 (.tally ⟨true, true⟩)
  · rw [(Recv.task_routing _).1 (.ok (.audio ⟨[4]⟩))]
    decide

end Nndi

namespace Nndi

/-- An `i32 as u32` cast, as done on the frame-rate numerator and
denominator. -/
def asU32 (i : Int) : Nat := (i % (2 ^ 32)).toNat

/-- The `SHQ2` fourcc tag (the ASCII bytes S, H, Q, 2 as a little-endian
32-bit word). -/
def fourccSHQ2 : Nat := 0x32514853

/-- The outcomes of the external collaborators used by
`Source::broadcast_video`: whether each fallible ffmpeg call succeeds, the
bytes `packet.data()` yields (`none` makes the `expect` panic), whether the
bounded frame channel still has a live receiver, and the current clock
reading used for the timestamp. -/
structure EncodeEnv where
  converterOk : Bool
  runOk : Bool
  encoderVideoOk : Bool
  openAsOk : Bool
  sendFrameOk : Bool
  sendEofOk : Bool
  receivePacketOk : Bool
  packetData : Option (List Nat)
  channelOpen : Bool
  now : Nat
deriving DecidableEq, Repr

/-- The stages of `Source::broadcast_video` after the width assertion, in
code order; a stage is recorded when its first call is attempted. -/
inductive EncodeStage where
  | pixelConvert
  | encoderSetup
  | encode
  | packetRetrieve
  | submit
deriving DecidableEq, Repr

/-- How one `broadcast_video` call ended: the width assertion panicked, the
`packet.data()` expect panicked, an error was returned, or it succeeded. -/
inductive EncodeOutcome where
  | assertPanicked
  | expectPanicked
  | failed (e : Error)
  | ok
deriving DecidableEq, Repr

/-- The observable effect of one `broadcast_video` call: its outcome, every
frame it submitted to the Source's outbound channel, and the stages it
attempted. -/
structure BroadcastResult where
  outcome : EncodeOutcome
  submitted : List Frame
  attempted : List EncodeStage
deriving DecidableEq, Repr

/-- The frame `broadcast_video` builds on success: fourcc `SHQ2`, the
converted frame's dimensions, the frame-rate fraction cast to `u32`, the
aspect ratio width/height, progressive scan, the current timestamp, and the
packet bytes. -/
def Source.encodedFrame (env : EncodeEnv) (width height : Nat)
    (fpsNum fpsDen : Int) (data : List Nat) : Frame :=
  .video ⟨⟨fourccSHQ2, width, height, asU32 fpsNum, asU32 fpsDen,
           width, height, true, env.now⟩, data⟩

/-- The fallible pipeline of `Source::broadcast_video` after the width
assertion (src/source/mod.rs lines 198-239): pixel conversion, encoder
setup, encoding, packet retrieval, then submission on the bounded channel
(`Error::ClosedChannel` when the loop is gone). Every `?` short-circuits
with the error and nothing submitted. -/
def Source.encodePipeline (env : EncodeEnv) (width height : Nat)
    (fpsNum fpsDen : Int) : BroadcastResult :=
  if !env.converterOk then ⟨.failed .ffmpeg, [], [.pixelConvert]⟩
  else if !env.runOk then ⟨.failed .ffmpeg, [], [.pixelConvert]⟩
  else if !env.encoderVideoOk then
    ⟨.failed .ffmpeg, [], [.pixelConvert, .encoderSetup]⟩
  else if !env.openAsOk then
    ⟨.failed .ffmpeg, [], [.pixelConvert, .encoderSetup]⟩
  else if !env.sendFrameOk then
    ⟨.failed .ffmpeg, [], [.pixelConvert, .encoderSetup, .encode]⟩
  else if !env.sendEofOk then
    ⟨.failed .ffmpeg, [], [.pixelConvert, .encoderSetup, .encode]⟩
  else if !env.receivePacketOk then
    ⟨.failed .ffmpeg, [],
     [.pixelConvert, .encoderSetup, .encode, .packetRetrieve]⟩
  else
    match env.packetData with
    | none =>
      ⟨.expectPanicked, [],
       [.pixelConvert, .encoderSetup, .encode, .packetRetrieve]⟩
    | some data =>
      if env.channelOpen then
        ⟨.ok, [Source.encodedFrame env width height fpsNum fpsDen data],
         [.pixelConvert, .encoderSetup, .encode, .packetRetrieve, .submit]⟩
      else
        ⟨.failed .closedChannel, [],
         [.pixelConvert, .encoderSetup, .encode, .packetRetrieve, .submit]⟩

/-- `Source::broadcast_video` (src/source/mod.rs lines 187-240): the
`assert!` that the frame width is a multiple of 16 runs before anything
else; only then does the conversion/encode/submit pipeline start. -/
def Source.broadcastVideo (env : EncodeEnv) (width height : Nat)
    (fpsNum fpsDen : Int) : BroadcastResult :=
  if width % 16 ≠ 0 then ⟨.assertPanicked, [], []⟩
  else Source.encodePipeline env width height fpsNum fpsDen

theorem Source.encodePipeline_not_assert (env : EncodeEnv)
    (width height : Nat) (fpsNum fpsDen : Int) :
    (Source.encodePipeline env width height fpsNum fpsDen).outcome
      ≠ .assertPanicked := by
  unfold Source.encodePipeline
  split_ifs <;> try simp
  cases hp : env.packetData <;> simp [hp]
  split <;> simp

/-- C8: when the input frame's width is not divisible by 16,
`broadcast_video` panics at the precondition `assert!` with nothing
attempted — no pixel conversion, no encode, nothing submitted; when the
width is divisible by 16 the precondition-failure outcome is unreachable. -/
theorem Source.broadcastVideo_checks_width (env : EncodeEnv)
    (width height : Nat) (fpsNum fpsDen : Int) :
    (width % 16 ≠ 0 →
        Source.broadcastVideo env width height fpsNum fpsDen
          = ⟨.assertPanicked, [], []⟩)
      ∧ (width % 16 = 0 →
          (Source.broadcastVideo env width height fpsNum fpsDen).outcome
            ≠ .assertPanicked) := by
  constructor
  · intro h
    simp [Source.broadcastVideo, h]
  · intro h
    rw [show Source.broadcastVideo env width height fpsNum fpsDen
          = Source.encodePipeline env width height fpsNum fpsDen by
        simp [Source.broadcastVideo, h]]
    exact Source.encodePipeline_not_assert env width height fpsNum fpsDen

/-- C8 witness: a width of 24 panics with an empty trace; a width of 32
cannot reach the precondition failure. -/
theorem Source.broadcastVideo_checks_width_witness :
    Source.broadcastVideo ⟨true, true, true, true, true, true, true,
        some [1], true, 0⟩ 24 16 30 1
      = ⟨.assertPanicked, [], []⟩
      ∧ (Source.broadcastVideo ⟨true, true, true, true, true, true, true,
          some [1], true, 0⟩ 32 16 30 1).outcome ≠ .assertPanicked := by
  refine ⟨?_, ?_⟩
  · exact (Source.broadcastVideo_checks_width _ 24 16 30 1).1 (by decide)
  · exact (Source.broadcastVideo_checks_width _ 32 16 30 1).2 (by decide)

theorem Source.encodePipeline_submit (env : EncodeEnv)
    (width height : Nat) (fpsNum fpsDen : Int) :
    ((Source.encodePipeline env width height fpsNum fpsDen).outcome ≠ .ok →
        (Source.encodePipeline env width height fpsNum fpsDen).submitted = [])
      ∧ ((Source.encodePipeline env width height fpsNum fpsDen).outcome = .ok →
          env.converterOk = true ∧ env.runOk = true
            ∧ env.encoderVideoOk = true ∧ env.openAsOk = true
            ∧ env.sendFrameOk = true ∧ env.sendEofOk = true
            ∧ env.receivePacketOk = true ∧ env.channelOpen = true
            ∧ ∃ data, env.packetData = some data
                ∧ (Source.encodePipeline env width height fpsNum fpsDen).submitted
                  = [Source.encodedFrame env width height fpsNum fpsDen data]) := by
  unfold Source.encodePipeline
  split_ifs with h₁ h₂ h₃ h₄ h₅ h₆ h₇ h₈
  · exact ⟨fun _ => rfl, fun hc => nomatch hc⟩
  · exact ⟨fun _ => rfl, fun hc => nomatch hc⟩
  · exact ⟨fun _ => rfl, fun hc => nomatch hc⟩
  · exact ⟨fun _ => rfl, fun hc => nomatch hc⟩
  · exact ⟨fun _ => rfl, fun hc => nomatch hc⟩
  · exact ⟨fun _ => rfl, fun hc => nomatch hc⟩
  · exact ⟨fun _ => rfl, fun hc => nomatch hc⟩
  · cases hp : env.packetData with
    | none => exact ⟨fun _ => rfl, fun hc => nomatch hc⟩
    | some data =>
        refine ⟨fun hne => absurd rfl hne, fun _ => ?_⟩
        exact ⟨by simpa using h₁, by simpa using h₂, by simpa using h₃,
               by simpa using h₄, by simpa using h₅, by simpa using h₆,
               by simpa using h₇, h₈, data, rfl, rfl⟩
  · cases hp : env.packetData with
    | none => exact ⟨fun _ => rfl, fun hc => nomatch hc⟩
    | some data => exact ⟨fun _ => rfl, fun hc => nomatch hc⟩

/-- C10: `broadcast_video` is atomic with respect to the outbound channel:
every outcome other than success — the width assertion, any ffmpeg error,
the missing-packet-data panic, or the closed channel — submits nothing,
and on success every pipeline stage ran, every collaborator succeeded, and
exactly the one encoded frame built from the packet bytes was submitted. -/
theorem Source.broadcastVideo_atomic_submit (env : EncodeEnv)
    (width height : Nat) (fpsNum fpsDen : Int) :
    ((Source.broadcastVideo env width height fpsNum fpsDen).outcome ≠ .ok →
        (Source.broadcastVideo env width height fpsNum fpsDen).submitted = [])
      ∧ ((Source.broadcastVideo env width height fpsNum fpsDen).outcome = .ok →
          env.converterOk = true ∧ env.runOk = true
            ∧ env.encoderVideoOk = true ∧ env.openAsOk = true
            ∧ env.sendFrameOk = true ∧ env.sendEofOk = true
            ∧ env.receivePacketOk = true ∧ env.channelOpen = true
            ∧ ∃ data, env.packetData = some data
                ∧ (Source.broadcastVideo env width height fpsNum fpsDen).submitted
                  = [Source.encodedFrame env width height fpsNum fpsDen data]) := by
  by_cases hw : width % 16 ≠ 0
  · rw [show Source.broadcastVideo env width height fpsNum fpsDen
          = ⟨.assertPanicked, [], []⟩ by simp [Source.broadcastVideo, hw]]
    exact ⟨fun _ => rfl, fun hc => nomatch hc⟩
  · rw [show Source.broadcastVideo env width height fpsNum fpsDen
          = Source.encodePipeline env width height fpsNum fpsDen by
        simp [Source.broadcastVideo, hw]]
    exact Source.encodePipeline_submit env width height fpsNum fpsDen

/-- C10 witness: a failing packet retrieval submits nothing, evaluated on a
concrete environment. -/
theorem Source.broadcastVideo_atomic_submit_witness :
    (Source.broadcastVideo ⟨true, true, true, true, true, true, false,
        some [1], true, 0⟩ 32 16 30 1).submitted = [] :=
  (Source.broadcastVideo_atomic_submit ⟨true, true, true, true, true, true,
      false, some [1], true, 0⟩ 32 16 30 1).1 (by decide)

end Nndi

namespace Nndi

/-- `Weak::upgrade` in the model: an `Arc` identity dereferences to the peer
record it guards exactly while the owning connection task keeps it alive;
`heap` lists the still-alive `Arc`s. A registry of these identities holds no
peer record itself, so it alone never keeps a peer alive. -/
def upgradeWeak (heap : List (Nat × Peer)) (w : Nat) : Option Peer :=
  (heap.find? (fun a => a.1 == w)).map (fun a => a.2)

/-- `Source::peers` (src/source/mod.rs lines 156-176): upgrade every stored
weak reference, keeping only the live ones (`filter_map(Weak::upgrade)`);
read and clone each live peer; rewrite the stored vector to downgrades of
exactly those live pointers; return the clones. The result is the returned
peer list and the rewritten stored vector. -/
def Source.peersScan (heap : List (Nat × Peer)) (stored : List Nat) :
    List Peer × List Nat :=
  let pointers := stored.filterMap
    (fun w => (upgradeWeak heap w).map (fun p => (w, p)))
  (pointers.map (fun a => a.2), pointers.map (fun a => a.1))

theorem Source.peersScan_snd (heap : List (Nat × Peer)) (stored : List Nat) :
    (Source.peersScan heap stored).2
      = stored.filter (fun w => (upgradeWeak heap w).isSome) := by
  induction stored with
  | nil => rfl
  | cons w ws ih =>
      simp only [Source.peersScan, List.filterMap_cons, List.filter_cons] at *
      cases hu : upgradeWeak heap w <;> simp [hu, ih]

theorem Source.peersScan_fst (heap : List (Nat × Peer)) (stored : List Nat) :
    (Source.peersScan heap stored).1
      = stored.filterMap (upgradeWeak heap) := by
  induction stored with
  | nil => rfl
  | cons w ws ih =>
      simp only [Source.peersScan, List.filterMap_cons] at *
      cases hu : upgradeWeak heap w <;> simp [hu, ih]

/-- C9: the registry holds only arc identities (weak references), never the
peer records themselves, and `Source::peers` prunes it lazily: the rewritten
stored vector is exactly the still-live subset of the old one (order and
multiplicity preserved), every dead reference is gone from it, a reference
is only dereferenced through `upgradeWeak` (never as if alive), and the
returned list is exactly the upgraded clones — each returned peer is the
live record of some stored reference. -/
theorem Source.peers_prunes_dead (heap : List (Nat × Peer))
    (stored : List Nat) :
    (Source.peersScan heap stored).2
        = stored.filter (fun w => (upgradeWeak heap w).isSome)
      ∧ (Source.peersScan heap stored).1 = stored.filterMap (upgradeWeak heap)
      ∧ (∀ w ∈ (Source.peersScan heap stored).2,
          (upgradeWeak heap w).isSome = true)
      ∧ (∀ w, upgradeWeak heap w = none →
          w ∉ (Source.peersScan heap stored).2)
      ∧ (∀ p ∈ (Source.peersScan heap stored).1,
          ∃ w ∈ stored, upgradeWeak heap w = some p) := by
  refine ⟨Source.peersScan_snd heap stored, Source.peersScan_fst heap stored,
    ?_, ?_, ?_⟩
  · intro w hw
    rw [Source.peersScan_snd heap stored] at hw
    exact (List.mem_filter.mp hw).2
  · intro w hdead hw
    rw [Source.peersScan_snd heap stored] at hw
    have := (List.mem_filter.mp hw).2
    rw [hdead] at this
    exact Bool.noConfusion this
  · intro p hp
    rw [Source.peersScan_fst heap stored] at hp
    exact List.mem_filterMap.mp hp

/-- C9 witness: a registry holding one live and one dead reference: the scan
returns only the live peer's clone, rewrites the stored vector to the live
reference alone, and the dead reference is pruned. -/
theorem Source.peers_prunes_dead_witness :
    (Source.peersScan [(0, allOnPeer)] [0, 1]).2 = [0]
      ∧ (Source.peersScan [(0, allOnPeer)] [0, 1]).1 = [allOnPeer]
      ∧ 1 ∉ (Source.peersScan [(0, allOnPeer)] [0, 1]).2 := by
  refine ⟨?_, ?_, ?_⟩
  · rw [(Source.peers_prunes_dead [(0, allOnPeer)] [0, 1]).1]
    decide
  · rw [(Source.peers_prunes_dead [(0, allOnPeer)] [0, 1]).2.1]
    decide
  · exact (Source.peers_prunes_dead [(0, allOnPeer)] [0, 1]).2.2.2.1 1 (by decide)

end Nndi
